import Mathlib

/-!
Verification of the SocialAnalytics repository (YouTube channel analytics).

The definitions below are a shallow embedding of the Python sources in
`src/dataCollection/`:
* `main_youtube.py` / `test.py` — duration parsing, video classification,
  identifier resolution, playlist paging, aggregation;
* `api.py` / `DB_data_api.py` — the two document-lookup HTTP endpoints.

Machine integers are modelled as `Int`/`Nat` (Python integers are unbounded),
Python `float` arithmetic on statistics is modelled by exact rationals with an
explicit round-half-to-even rounding step, and the external YouTube / database
clients are modelled as explicit oracles (`Except` captures a raised
exception).  Strings are manipulated through their character lists, mirroring
Python string operations.
-/

namespace SocialAnalytics

/-! ### Duration parsing (`_is_short_duration`, main_youtube.py lines 111-120)

The source applies `re.match(r'PT(\d+H)?(\d+M)?(\d+S)?', duration)`.
`re.match` anchors at the start of the string only: the literal `PT` must be a
prefix, each optional group `(\d+X)?` consumes a maximal digit run followed by
the literal letter, and trailing characters are ignored.  A digit run followed
by the wrong letter makes that group fail without consuming anything. -/

/-- `int(...)` of a decimal digit string (the regex groups are digit runs). -/
def digitsToNat (ds : List Char) : Nat :=
  ds.foldl (fun n c => n * 10 + (c.toNat - '0'.toNat)) 0

/-- One optional regex group `(\d+X)?` at the current position: consume a
maximal digit run followed by the literal `c`, or consume nothing. -/
def tryGroup (c : Char) (cs : List Char) : Option Nat × List Char :=
  let ds := cs.takeWhile Char.isDigit
  let rest := cs.dropWhile Char.isDigit
  if ds.isEmpty then (none, cs)
  else
    match rest with
    | r :: rest2 => if r = c then (some (digitsToNat ds), rest2) else (none, cs)
    | [] => (none, cs)

/-- The three regex groups applied after the literal `PT`. -/
def parseHMS (rest : List Char) : Nat × Nat × Nat :=
  let g1 := tryGroup 'H' rest
  let g2 := tryGroup 'M' g1.2
  let g3 := tryGroup 'S' g2.2
  (g1.1.getD 0, g2.1.getD 0, g3.1.getD 0)

/-- `re.match(r'PT(\d+H)?(\d+M)?(\d+S)?', ...)` on a character list: `none`
models a failed match, `some (h, m, s)` the three groups with a missing group
defaulted to zero (the source computes `int(group[:-1]) if group else 0`). -/
def pyDurationMatchL (cs : List Char) : Option (Nat × Nat × Nat) :=
  match cs with
  | c1 :: c2 :: rest =>
    if c1 = 'P' then
      if c2 = 'T' then some (parseHMS rest)
      else none
    else none
  | _ => none

/-- The regex model on strings. -/
def pyDurationMatch (s : String) : Option (Nat × Nat × Nat) :=
  pyDurationMatchL s.toList

/-- `_is_short_duration` (main_youtube.py 111-120, test.py 225-234): total
seconds of the matched groups is at most 60; a failed match returns `False`. -/
def is_short_duration (s : String) : Bool :=
  match pyDurationMatch s with
  | some (h, m, sec) => decide (h * 3600 + m * 60 + sec ≤ 60)
  | none => false

/-- `_determine_video_type` (main_youtube.py 102-109, test.py 216-223).
`live_details` is the Python truthiness of the optional
`liveStreamingDetails` dict; `broadcast_content` is the optional
`liveBroadcastContent` string. -/
def determine_video_type (duration : String) (live_details : Bool)
    (broadcast_content : Option String) : String :=
  if live_details = true ∨ broadcast_content = some "live" ∨
      broadcast_content = some "upcoming" then "Live"
  else if is_short_duration duration = true then "Short"
  else "Video"

/-- An optional duration component: absent (empty digit list) or a nonempty
digit run followed by its letter. -/
def optPart (ds : List Char) (c : Char) : List Char :=
  if ds = [] then [] else ds ++ [c]

/-- Build a duration string of the restricted spec form `PT[nH][nM][nS]` from
the three (possibly empty, i.e. missing) digit runs. -/
def mkDuration (dh dm ds2 : List Char) : String :=
  ⟨'P' :: 'T' :: (optPart dh 'H' ++ optPart dm 'M' ++ optPart ds2 'S')⟩

/-- Does the string begin with the literal `PT` (the only way the anchored
regex can match at all)? -/
def startsWithPT (s : String) : Bool :=
  match s.toList with
  | c1 :: c2 :: _ => c1 = 'P' && c2 = 'T'
  | _ => false

/-! ### Identifier resolution (`get_channel_id`, main_youtube.py 22-37,
test.py 136-151)

Python string operations are modelled on character lists: `sub in s` is
substring containment, `s.split(sep)[1]` is the run between the first and
second occurrence of `sep`, `s.split('/')[0]` is the run before the first
slash, `s.split('/')[-1]` the run after the last slash. -/

/-- Locate the first occurrence of `sep`: `some (before, after)` splits the
list around that occurrence. -/
def splitFirst (sep : List Char) : List Char → Option (List Char × List Char)
  | [] => if sep.isPrefixOf ([] : List Char) then some ([], []) else none
  | c :: rest =>
    if sep.isPrefixOf (c :: rest) then some ([], (c :: rest).drop sep.length)
    else (splitFirst sep rest).map (fun p => (c :: p.1, p.2))

/-- Python `sep in s` (substring containment, for nonempty `sep`). -/
def pyInL (sep cs : List Char) : Bool := (splitFirst sep cs).isSome

/-- Python `s.split(sep)[1]`: the run between the first and second occurrence
of `sep` (everything after the first occurrence when there is no second). -/
def pySplitGet1 (sep cs : List Char) : List Char :=
  match splitFirst sep cs with
  | none => []
  | some (_, a) =>
    match splitFirst sep a with
    | none => a
    | some (b2, _) => b2

/-- Python `s.split('/')[-1]`: the run after the last slash. -/
def lastSegSlash (cs : List Char) : List Char :=
  (cs.reverse.takeWhile (fun c => c ≠ '/')).reverse

/-- Does the string start with `'@'` (Python `identifier.startswith('@')`)? -/
def headIsAt : List Char → Bool
  | [] => false
  | c :: _ => c = '@'

/-- Outcome of `get_channel_id`: either the ID extracted directly from a
`/channel/` URL (no network call), or a pending username / handle lookup
(each performs one network call in the source), or `None`. -/
inductive Resolution where
  | direct (id : String)
  | byUsername (u : String)
  | byHandle (h : String)
  | notFound
deriving DecidableEq, Repr

/-- Does the resolution outcome involve a network lookup? -/
def usesNetwork : Resolution → Bool
  | .byUsername _ => true
  | .byHandle _ => true
  | _ => false

def ytSep : List Char := "youtube.com".toList

def chanSep : List Char := "/channel/".toList

def cSep : List Char := "/c/".toList

def userSep : List Char := "/user/".toList

def atSep : List Char := "/@".toList

/-- `get_channel_id` (main_youtube.py 22-37, test.py 136-151). The branch on
`'youtube.com' in identifier` comes first; inside it the `/channel/`, `/c/`
or `/user/`, and `/@` branches are tried in order, and an URL matching none
of them falls through to `return None`. -/
def get_channel_id (identifier : String) : Resolution :=
  let cs := identifier.toList
  if pyInL ytSep cs then
    if pyInL chanSep cs then
      .direct ⟨(pySplitGet1 chanSep cs).takeWhile (fun c => c ≠ '/')⟩
    else if pyInL cSep cs || pyInL userSep cs then
      .byUsername ⟨lastSegSlash cs⟩
    else if pyInL atSep cs then
      .byHandle ⟨(pySplitGet1 atSep cs).takeWhile (fun c => c ≠ '/')⟩
    else .notFound
  else if headIsAt cs then .byHandle ⟨cs.drop 1⟩
  else .byUsername identifier

/-! ### Video lister (`get_channel_videos`, main_youtube.py 122-167,
test.py 236-281)

The YouTube client is an oracle: `channelLookup` models
`channels().list(...)` (`.ok none` = empty `items`, `.error` = raised
exception), `pages k` models the `k`-th `playlistItems().list(...)` call, and
`details` models the `videos().list(...)` call inside `get_video_details`.
The `while True` loop is given fuel; every claim is settled on traces where
the fuel is not exhausted. -/

/-- One entry of a playlist page: `item['snippet']['publishedAt']` and
`item['snippet']['resourceId']['videoId']`. -/
structure PlaylistItem where
  published_at : String
  videoId : String
deriving DecidableEq, Repr

/-- One `playlistItems().list` response: entries plus optional
`nextPageToken`. -/
structure PageResp where
  items : List PlaylistItem
  nextPageToken : Option String
deriving DecidableEq, Repr

/-- The record `get_video_details` builds for one video (title and url are
omitted; the classifier that fills `type` is modelled separately). -/
structure VideoData where
  published_at : String
  views : Int
  likes : Int
  comments : Int
  vtype : String
deriving DecidableEq, Repr

/-- One collected video row (`{'video_id': ..., **video_details}`). The
`type` field is optional because `analyze_channel` defends against its
absence with `video.get('type', 'Video')`. -/
structure Video where
  video_id : String
  published_at : String
  views : Int
  likes : Int
  comments : Int
  vtype : Option String
deriving DecidableEq, Repr

/-- The external YouTube client as an oracle. -/
structure YtApi where
  channelLookup : Except String (Option String)
  pages : Nat → Except String PageResp
  details : String → Except String (Option VideoData)

/-- Python string `<` (lexicographic by code point), used by the source to
compare ISO timestamps (`video_published < published_after`). -/
def pyStrLtAux : List Char → List Char → Bool
  | [], [] => false
  | [], _ :: _ => true
  | _ :: _, [] => false
  | a :: as2, b :: bs => if a.toNat < b.toNat then true
    else if b.toNat < a.toNat then false
    else pyStrLtAux as2 bs

def pyStrLt (a b : String) : Bool := pyStrLtAux a.toList b.toList

/-- `get_video_details` (main_youtube.py 69-100): a raised exception or an
empty `items` list both yield the falsy `{}`, modelled as `none`. -/
def get_video_details (api : YtApi) (video_id : String) : Option VideoData :=
  match api.details video_id with
  | .error _ => none
  | .ok od => od

/-- Build the collected row `{'video_id': video_id, **video_details}`. -/
def mkVideo (video_id : String) (d : VideoData) : Video :=
  ⟨video_id, d.published_at, d.views, d.likes, d.comments, some d.vtype⟩

/-- The `for item in playlist_response['items']` body: entries older than the
cutoff are skipped (`continue`), a falsy `video_details` is skipped, the rest
are appended in order. -/
def collectItems (api : YtApi) (cutoff : String) (items : List PlaylistItem) :
    List Video :=
  items.filterMap (fun item =>
    if pyStrLt item.published_at cutoff then none
    else
      match get_video_details api item.videoId with
      | none => none
      | some d => some (mkVideo item.videoId d))

/-- The `while True` paging loop. Returns the collected videos and the list
of `(pageToken, maxResults)` request parameters issued. A raised page fetch
is caught by the `except` around the loop, which returns the rows collected
so far — modelled by the `.error` branch contributing nothing beyond the
earlier pages' rows. -/
def pagesLoop (api : YtApi) (cutoff : String) :
    Nat → Nat → Option String → List Video × List (Option String × Nat)
  | 0, _, _ => ([], [])
  | fuel + 1, k, tok =>
    match api.pages k with
    | .error _ => ([], [(tok, 50)])
    | .ok p =>
      match p.nextPageToken with
      | none => (collectItems api cutoff p.items, [(tok, 50)])
      | some t =>
        let r := pagesLoop api cutoff fuel (k + 1) (some t)
        (collectItems api cutoff p.items ++ r.1, (tok, 50) :: r.2)

/-- `get_channel_videos` (main_youtube.py 122-167, test.py 236-281): the
collected rows. `cutoff` abstracts `(utcnow() - timedelta(days)).isoformat()`. -/
def get_channel_videos (api : YtApi) (cutoff : String) (fuel : Nat) :
    List Video :=
  match api.channelLookup with
  | .error _ => []
  | .ok none => []
  | .ok (some _) => (pagesLoop api cutoff fuel 0 none).1

/-- The playlist-page requests issued by the same run. -/
def get_channel_requests (api : YtApi) (cutoff : String) (fuel : Nat) :
    List (Option String × Nat) :=
  match api.channelLookup with
  | .error _ => []
  | .ok none => []
  | .ok (some _) => (pagesLoop api cutoff fuel 0 none).2

/-! ### Aggregator (`analyze_channel`, test.py 33-134)

Only the aggregation part (lines 52-134) is embedded: the function is given
the already-fetched video list; `channel_id`, `analysis_period_days` and
`analysis_date` are metadata irrelevant to every claim. Python `round(x, 2)`
on exact values is modelled by round-half-to-even at two decimals over `ℚ`. -/

/-- Python `round` to an integer: round half to even. -/
def pyRoundHalfEven (q : ℚ) : Int :=
  let f := q.floor
  let r := q - (f : ℚ)
  if r < 1 / 2 then f
  else if 1 / 2 < r then f + 1
  else if f % 2 = 0 then f else f + 1

/-- Python `round(x, 2)`. -/
def round2 (q : ℚ) : ℚ := (pyRoundHalfEven (q * 100) : ℚ) / 100

/-- Per-type statistics bucket (the dict initialised at test.py 62-94;
`get_empty_type_stats` at test.py 18-30 builds the same value). -/
structure TypeStats where
  count : Nat
  total_views : Int
  total_likes : Int
  total_comments : Int
  average_views : ℚ
  average_likes : ℚ
  average_comments : ℚ
  engagement_rate : ℚ
  top_videos : List Video
deriving DecidableEq, Repr

/-- `get_empty_type_stats` (test.py 18-30). -/
def get_empty_type_stats : TypeStats := ⟨0, 0, 0, 0, 0, 0, 0, 0, []⟩

/-- The `content_type_stats` dict: its three fixed keys. -/
structure CTStats where
  video : TypeStats
  short : TypeStats
  live : TypeStats
deriving DecidableEq, Repr

/-- The initial `content_type_stats` value (test.py 61-95). -/
def initContentTypeStats : CTStats :=
  ⟨get_empty_type_stats, get_empty_type_stats, get_empty_type_stats⟩

/-- `video.get('type', 'Video')` (test.py 99). -/
def typeKey (v : Video) : String := v.vtype.getD "Video"

/-- Stable descending insertion: the new element goes after existing elements
with equal views. Folding this left-to-right computes the same function as
Python's `sorted(..., key=lambda x: x.get('views', 0), reverse=True)`, which
is documented to be stable (a stable sort is extensionally unique). -/
def insertAfterEq (v : Video) : List Video → List Video
  | [] => [v]
  | b :: t => if v.views ≤ b.views then b :: insertAfterEq v t else v :: b :: t

/-- Python's stable `sorted(..., reverse=True)` by views. -/
def pySortDesc (l : List Video) : List Video :=
  l.foldl (fun acc v => insertAfterEq v acc) []

/-- The per-video bucket update (test.py 102-113): bump the sums, append to
`top_videos`, re-sort descending by views, truncate to 5. -/
def bump (ts : TypeStats) (v : Video) : TypeStats :=
  { ts with
    count := ts.count + 1
    total_views := ts.total_views + v.views
    total_likes := ts.total_likes + v.likes
    total_comments := ts.total_comments + v.comments
    top_videos := (pySortDesc (ts.top_videos ++ [v])).take 5 }

/-- One iteration of the grouping loop (test.py 98-113):
`content_type_stats[video_type]` raises `KeyError` for any key other than the
three initialised ones. -/
def updateStats (c : CTStats) (v : Video) : Except String CTStats :=
  let t := typeKey v
  if t = "Video" then .ok { c with video := bump c.video v }
  else if t = "Short" then .ok { c with short := bump c.short v }
  else if t = "Live" then .ok { c with live := bump c.live v }
  else .error "KeyError"

/-- The grouping loop over all videos. -/
def foldVideos : CTStats → List Video → Except String CTStats
  | c, [] => .ok c
  | c, v :: rest =>
    match updateStats c v with
    | .error e => .error e
    | .ok c2 => foldVideos c2 rest

/-- The second pass (test.py 116-122): averages and engagement rate, computed
only for buckets with `count > 0`; engagement rate is 0 when the view sum is
not positive. -/
def finalize (ts : TypeStats) : TypeStats :=
  if 0 < ts.count then
    { ts with
      average_views := round2 ((ts.total_views : ℚ) / (ts.count : ℚ))
      average_likes := round2 ((ts.total_likes : ℚ) / (ts.count : ℚ))
      average_comments := round2 ((ts.total_comments : ℚ) / (ts.count : ℚ))
      engagement_rate :=
        if 0 < ts.total_views then
          round2 (((ts.total_likes + ts.total_comments : Int) : ℚ) /
            (ts.total_views : ℚ) * 100)
        else 0 }
  else ts

/-- The aggregation result (test.py 125-132): `overall_stats`, the three
per-type buckets, and `all_videos`. -/
structure AggResult where
  total_videos : Nat
  total_views : Int
  total_likes : Int
  total_comments : Int
  cta : CTStats
  all_videos : List Video
deriving DecidableEq, Repr

/-- The aggregation part of `analyze_channel` (test.py 52-134) applied to the
fetched video list. -/
def analyze_channel_agg (videos : List Video) : Except String AggResult :=
  match foldVideos initContentTypeStats videos with
  | .error e => .error e
  | .ok c =>
    .ok
      { total_videos := videos.length
        total_views := (videos.map Video.views).sum
        total_likes := (videos.map Video.likes).sum
        total_comments := (videos.map Video.comments).sum
        cta := ⟨finalize c.video, finalize c.short, finalize c.live⟩
        all_videos := videos }

/-- Specification-side description of a bucket's members: the input videos
whose (defaulted) type equals the bucket key, in input order. -/
def bucketOf (t : String) (l : List Video) : List Video :=
  l.filter (fun v => typeKey v == t)

/-- Specification-side description of a bucket after the grouping loop. -/
def mkBucket (t : String) (l : List Video) : TypeStats :=
  ⟨(bucketOf t l).length,
    ((bucketOf t l).map Video.views).sum,
    ((bucketOf t l).map Video.likes).sum,
    ((bucketOf t l).map Video.comments).sum,
    0, 0, 0, 0,
    (pySortDesc (bucketOf t l)).take 5⟩

/-- Sorted descending by views. -/
def sortedDesc (l : List Video) : Prop :=
  l.Pairwise (fun a b => b.views ≤ a.views)

/-! ### Document lookup endpoints (`get_data` in api.py 17-49 and
DB_data_api.py 17-40)

Each endpoint is a function of the optional `channel_id` query parameter and
a database oracle; the boolean in the result records whether the database was
accessed. -/

/-- Response bodies that the two endpoints can produce. -/
inductive RespBody where
  | err (msg : String)
  | rows (rs : List String)
  | doc (d : String)
deriving DecidableEq, Repr

/-- Python truthiness test `if not channel_id` on an optional string. -/
def pyFalsy (s : Option String) : Bool :=
  match s with
  | none => true
  | some t => t.isEmpty

/-- `get_data` of api.py (CQL variant): status, body, and whether the
database was accessed. -/
def get_data_api (channel_id : Option String)
    (dbExec : String → Except String (List String)) : (Nat × RespBody) × Bool :=
  if pyFalsy channel_id then ((400, .err "channel_id parameter is required"), false)
  else
    match dbExec (channel_id.getD "") with
    | .error e => ((500, .err e), true)
    | .ok rs => ((200, .rows rs), true)

/-- `get_data` of DB_data_api.py (document variant): `results["data"
]["documents"][0]` raises `IndexError` inside the `try` when no document
matches, which the handler converts to a 500 like any other exception. -/
def get_data_db (channel_id : Option String)
    (find : String → Except String (List String)) : (Nat × RespBody) × Bool :=
  if pyFalsy channel_id then ((400, .err "channel_id parameter is required"), false)
  else
    match find (channel_id.getD "") with
    | .error e => ((500, .err e), true)
    | .ok docs =>
      match docs with
      | [] => ((500, .err "list index out of range"), true)
      | d :: _ => ((200, .doc d), true)

/-! ### Concrete oracles and inputs used to instantiate the claims -/

/-- A channel whose first playlist page succeeds (one in-window entry with a
continuation token) and whose second page fetch raises. -/
def api3 : YtApi :=
  { channelLookup := .ok (some "UPLOADS")
    pages := fun k =>
      if k = 0 then .ok ⟨[⟨"2024-05-01", "v1"⟩], some "tok2"⟩
      else .error "boom"
    details := fun vid =>
      if vid = "v1" then .ok (some ⟨"2024-05-01", 7, 1, 0, "Video"⟩)
      else .ok none }

/-- A channel whose first page holds only an entry older than the cutoff but
carries a continuation token, and whose second page holds an in-window entry
and no token. -/
def api4 : YtApi :=
  { channelLookup := .ok (some "UPLOADS")
    pages := fun k =>
      if k = 0 then .ok ⟨[⟨"2020-01-01", "old1"⟩], some "tok2"⟩
      else if k = 1 then .ok ⟨[⟨"2024-05-01", "new1"⟩], none⟩
      else .error "boom"
    details := fun vid =>
      if vid = "new1" then .ok (some ⟨"2024-05-01", 3, 0, 0, "Video"⟩)
      else .ok none }

/-- A channel with a single page carrying no continuation token. -/
def api5 : YtApi :=
  { channelLookup := .ok (some "UPLOADS")
    pages := fun k =>
      if k = 0 then .ok ⟨[⟨"2024-05-01", "n1"⟩], none⟩
      else .error "x"
    details := fun _ => .ok none }

/-- A one-video input list for instantiating the aggregation claims. -/
def l1w : List Video := [⟨"vid1", "2024-01-01", 10, 2, 1, some "Video"⟩]

/-- The aggregation result on `l1w`. -/
def r1w : AggResult :=
  { total_videos := 1
    total_views := 10
    total_likes := 2
    total_comments := 1
    cta :=
      ⟨⟨1, 10, 2, 1, 10, 2, 1, 30, [⟨"vid1", "2024-01-01", 10, 2, 1, some "Video"⟩]⟩,
        get_empty_type_stats, get_empty_type_stats⟩
    all_videos := l1w }

/-! ## Theorems -/

/-! ### Lemmas about the regex model -/

theorem takeWhile_dropWhile_digits (ds : List Char) (b : Char) (rest : List Char)
    (hds : ds.all Char.isDigit = true) (hb : b.isDigit = false) :
    (ds ++ b :: rest).takeWhile Char.isDigit = ds ∧
      (ds ++ b :: rest).dropWhile Char.isDigit = b :: rest := by
  induction ds with
  | nil => simp [List.takeWhile_cons, List.dropWhile_cons, hb]
  | cons d ds ih =>
    simp only [List.all_cons, Bool.and_eq_true] at hds
    have h := ih hds.2
    simp [List.takeWhile_cons, List.dropWhile_cons, hds.1, h.1, h.2]

theorem tryGroup_nil (c : Char) : tryGroup c [] = (none, []) := rfl

theorem tryGroup_miss (c b : Char) (ds rest : List Char)
    (hds : ds.all Char.isDigit = true) (hb : b.isDigit = false) (hbc : b ≠ c) :
    tryGroup c (ds ++ b :: rest) = (none, ds ++ b :: rest) := by
  have h := takeWhile_dropWhile_digits ds b rest hds hb
  unfold tryGroup
  simp only [h.1, h.2]
  cases ds with
  | nil => simp
  | cons d ds => simp [hbc]

theorem tryGroup_hit (c : Char) (ds rest : List Char)
    (hds : ds.all Char.isDigit = true) (hne : ds ≠ [])
    (hc : c.isDigit = false) :
    tryGroup c (ds ++ c :: rest) = (some (digitsToNat ds), rest) := by
  have h := takeWhile_dropWhile_digits ds c rest hds hc
  unfold tryGroup
  simp only [h.1, h.2]
  cases ds with
  | nil => exact absurd rfl hne
  | cons d ds => simp

theorem digitsToNat_nil : digitsToNat [] = 0 := rfl

/-- The regex model applied to a well-formed duration string recovers the
three component values. -/
theorem pyDurationMatch_mkDuration (dh dm ds2 : List Char)
    (h1 : dh.all Char.isDigit = true) (h2 : dm.all Char.isDigit = true)
    (h3 : ds2.all Char.isDigit = true) :
    pyDurationMatch (mkDuration dh dm ds2) =
      some (digitsToNat dh, digitsToNat dm, digitsToNat ds2) := by
  have hH : ('H').isDigit = false := by decide
  have hM : ('M').isDigit = false := by decide
  have hS : ('S').isDigit = false := by decide
  have stepS : tryGroup 'S' (optPart ds2 'S') =
      ((if ds2 = [] then none else some (digitsToNat ds2)), []) := by
    by_cases hds : ds2 = []
    · simp [optPart, hds, tryGroup_nil]
    · have h := tryGroup_hit 'S' ds2 [] h3 hds hS
      simp only [optPart, if_neg hds]
      simpa using h
  have stepTailS : tryGroup 'M' (optPart ds2 'S') = (none, optPart ds2 'S') := by
    by_cases hds : ds2 = []
    · simp [optPart, hds, tryGroup_nil]
    · rw [show optPart ds2 'S' = ds2 ++ 'S' :: [] from by simp [optPart, hds]]
      exact tryGroup_miss 'M' 'S' ds2 [] h3 hS (by decide)
  have stepTailS2 : tryGroup 'H' (optPart ds2 'S') = (none, optPart ds2 'S') := by
    by_cases hds : ds2 = []
    · simp [optPart, hds, tryGroup_nil]
    · rw [show optPart ds2 'S' = ds2 ++ 'S' :: [] from by simp [optPart, hds]]
      exact tryGroup_miss 'H' 'S' ds2 [] h3 hS (by decide)
  have stepM : tryGroup 'M' (optPart dm 'M' ++ optPart ds2 'S') =
      ((if dm = [] then none else some (digitsToNat dm)), optPart ds2 'S') := by
    by_cases hdm : dm = []
    · rw [show optPart dm 'M' = [] from by simp [optPart, hdm], List.nil_append, if_pos hdm]
      exact stepTailS
    · rw [show optPart dm 'M' ++ optPart ds2 'S' = dm ++ 'M' :: optPart ds2 'S' from by
          simp [optPart, hdm],
        tryGroup_hit 'M' dm (optPart ds2 'S') h2 hdm hM]
      simp [hdm]
  have stepH : tryGroup 'H' (optPart dh 'H' ++ (optPart dm 'M' ++ optPart ds2 'S')) =
      ((if dh = [] then none else some (digitsToNat dh)),
        optPart dm 'M' ++ optPart ds2 'S') := by
    by_cases hdh : dh = []
    · rw [show optPart dh 'H' = [] from by simp [optPart, hdh], List.nil_append, if_pos hdh]
      by_cases hdm : dm = []
      · rw [show optPart dm 'M' = [] from by simp [optPart, hdm], List.nil_append]
        exact stepTailS2
      · rw [show optPart dm 'M' ++ optPart ds2 'S' = dm ++ 'M' :: optPart ds2 'S' from by
            simp [optPart, hdm]]
        exact tryGroup_miss 'H' 'M' dm (optPart ds2 'S') h2 hM (by decide)
    · rw [show optPart dh 'H' ++ (optPart dm 'M' ++ optPart ds2 'S') =
            dh ++ 'H' :: (optPart dm 'M' ++ optPart ds2 'S') from by simp [optPart, hdh],
        tryGroup_hit 'H' dh _ h1 hdh hH]
      simp [hdh]
  have htoList : (mkDuration dh dm ds2).toList =
      'P' :: 'T' :: (optPart dh 'H' ++ optPart dm 'M' ++ optPart ds2 'S') := rfl
  unfold pyDurationMatch
  rw [htoList]
  unfold pyDurationMatchL
  simp only [if_pos rfl]
  unfold parseHMS
  rw [show optPart dh 'H' ++ optPart dm 'M' ++ optPart ds2 'S' =
        optPart dh 'H' ++ (optPart dm 'M' ++ optPart ds2 'S') from List.append_assoc ..]
  simp only [stepH, stepM, stepS]
  by_cases hdh : dh = [] <;> by_cases hdm : dm = [] <;> by_cases hds : ds2 = [] <;>
    simp [hdh, hdm, hds, digitsToNat_nil]

/-- A string that does not begin with `PT` fails the anchored regex match. -/
theorem pyDurationMatch_not_pt (s : String) (h : startsWithPT s = false) :
    pyDurationMatch s = none := by
  unfold startsWithPT at h
  unfold pyDurationMatch pyDurationMatchL
  cases hcs : s.toList with
  | nil => rfl
  | cons c1 tl =>
    cases tl with
    | nil => rfl
    | cons c2 rest =>
      rw [hcs] at h
      simp only [Bool.and_eq_false_iff, decide_eq_false_iff_not] at h
      rcases h with h | h
      · simp [h]
      · by_cases h1 : c1 = 'P' <;> simp [h1, h]

/-! ### Claims C1 and C2: classification -/

/-- C1 (counterexample): the duration string `"abc"` does not match the
restricted pattern `PT[nH][nM][nS]`, yet a non-live video carrying it is
classified `"Video"`, not `"Short"` as the claim states. -/
theorem C1_counterexample :
    determine_video_type "abc" false none = "Video" ∧
      determine_video_type "abc" false none ≠ "Short" := by
  constructor <;> decide

/-- C1 (amended): a duration string that does not begin with `PT` cannot
match the anchored regex at all, so the short-duration check returns false
and a video with that duration, no live-streaming details and a
non-live/upcoming broadcast status is classified `"Video"` (only strings
beginning with `PT` whose components fail to parse are treated as zero
seconds and classified `"Short"`). -/
theorem C1_non_pt_is_video (dur : String) (bc : Option String)
    (hpt : startsWithPT dur = false)
    (h1 : bc ≠ some "live") (h2 : bc ≠ some "upcoming") :
    determine_video_type dur false bc = "Video" := by
  have hsd : is_short_duration dur = false := by
    unfold is_short_duration
    rw [pyDurationMatch_not_pt dur hpt]
  have hcond : ¬(false = true ∨ bc = some "live" ∨ bc = some "upcoming") := by
    rintro (hc | hc | hc)
    · exact Bool.false_ne_true hc
    · exact h1 hc
    · exact h2 hc
  unfold determine_video_type
  rw [if_neg hcond, hsd]
  simp

/-- Witness for C1 (amended) at the concrete malformed duration `"abc"`. -/
theorem C1_non_pt_is_video_witness :
    determine_video_type "abc" false (some "none") = "Video" :=
  C1_non_pt_is_video "abc" (some "none") (by decide) (by decide) (by decide)

/-- C2: the classifier is the ordered first-match policy — live-streaming
details or a `live`/`upcoming` broadcast status give `"Live"` for any
duration; otherwise a duration of the restricted form `PT[nH][nM][nS]`
(missing components zero) gives `"Short"` iff its total seconds
`h*3600 + m*60 + s` is at most 60, and `"Video"` otherwise. -/
theorem C2_classification_policy :
    (∀ (d : String) (ld : Bool) (bc : Option String),
        (ld = true ∨ bc = some "live" ∨ bc = some "upcoming") →
          determine_video_type d ld bc = "Live") ∧
      ∀ (dh dm ds2 : List Char) (ld : Bool) (bc : Option String),
        dh.all Char.isDigit = true → dm.all Char.isDigit = true →
          ds2.all Char.isDigit = true →
          determine_video_type (mkDuration dh dm ds2) ld bc =
            if ld = true ∨ bc = some "live" ∨ bc = some "upcoming" then "Live"
            else if digitsToNat dh * 3600 + digitsToNat dm * 60 +
                digitsToNat ds2 ≤ 60 then "Short"
            else "Video" := by
  constructor
  · intro d ld bc h
    unfold determine_video_type
    rw [if_pos h]
  · intro dh dm ds2 ld bc h1 h2 h3
    unfold determine_video_type is_short_duration
    rw [pyDurationMatch_mkDuration dh dm ds2 h1 h2 h3]
    by_cases hl : ld = true ∨ bc = some "live" ∨ bc = some "upcoming"
    · rw [if_pos hl, if_pos hl]
    · rw [if_neg hl, if_neg hl]
      by_cases hle : digitsToNat dh * 3600 + digitsToNat dm * 60 +
          digitsToNat ds2 ≤ 60
      · rw [if_pos hle]
        simp [hle]
      · rw [if_neg hle]
        simp [hle]

/-- Witness for C2 at the concrete 45-second duration `PT45S` with no live
indicators. -/
theorem C2_classification_policy_witness :
    determine_video_type (mkDuration [] [] ['4', '5']) false none = "Short" := by
  have h := C2_classification_policy.2 [] [] ['4', '5'] false none rfl rfl (by decide)
  rw [h]
  decide

/-! ### Lemmas about the identifier-resolution string model -/

/-- A successful `splitFirst` decomposes its input around the separator. -/
theorem splitFirst_eq_append (sep : List Char) :
    ∀ (cs b a : List Char), splitFirst sep cs = some (b, a) → cs = b ++ sep ++ a := by
  intro cs
  induction cs with
  | nil =>
    intro b a h
    unfold splitFirst at h
    by_cases hp : sep.isPrefixOf ([] : List Char)
    · rw [if_pos hp] at h
      have hsep : sep = [] := by
        have := List.isPrefixOf_iff_prefix.mp hp
        simpa using this
      cases h
      simp [hsep]
    · rw [if_neg hp] at h
      cases h
  | cons c rest ih =>
    intro b a h
    unfold splitFirst at h
    by_cases hp : sep.isPrefixOf (c :: rest)
    · rw [if_pos hp] at h
      cases h
      have hpre := List.isPrefixOf_iff_prefix.mp hp
      have := List.prefix_iff_eq_append.mp hpre
      simpa using this.symm
    · rw [if_neg hp] at h
      cases hsp : splitFirst sep rest with
      | none => rw [hsp] at h; cases h
      | some p =>
        rw [hsp] at h
        cases h
        have := ih p.1 p.2 (by rw [hsp])
        simp [this]

/-- `takeWhile` is blind to anything at or after a failing element. -/
theorem takeWhile_append_stop (P : Char → Bool) (b : List Char) (c : Char)
    (r : List Char) (hc : P c = false) :
    (b ++ c :: r).takeWhile P = b.takeWhile P := by
  induction b with
  | nil => simp [List.takeWhile_cons, hc]
  | cons x xs ih => simp [List.takeWhile_cons, ih]

/-- The code's `split('/channel/')[1].split('/')[0]` extraction agrees with
"the characters after the first `/channel/` up to the next slash". -/
theorem pySplitGet1_takeWhile (cs b a : List Char)
    (h : splitFirst chanSep cs = some (b, a)) :
    (pySplitGet1 chanSep cs).takeWhile (fun c => c ≠ '/') =
      a.takeWhile (fun c => c ≠ '/') := by
  cases h2 : splitFirst chanSep a with
  | none => simp only [pySplitGet1, h, h2]
  | some p =>
    simp only [pySplitGet1, h, h2]
    have hdec := splitFirst_eq_append chanSep a p.1 p.2 (by rw [h2])
    have hsep : chanSep = '/' :: ("channel/".toList) := rfl
    rw [hsep] at hdec
    have ha : a = p.1 ++ '/' :: ("channel/".toList ++ p.2) := by
      simpa using hdec
    rw [ha, takeWhile_append_stop _ p.1 '/' _ (by simp)]

/-! ### Claim C5: identifier resolution for `/channel/` URLs -/

/-- C5 (counterexample): the input `"/channel/UC123"` contains `/channel/`
but not `youtube.com`, so `get_channel_id` does not return the following
path segment directly: it falls through to a username lookup, which is a
network call. -/
theorem C5_counterexample :
    get_channel_id "/channel/UC123" ≠ Resolution.direct "UC123" ∧
      usesNetwork (get_channel_id "/channel/UC123") = true := by
  constructor <;> decide

/-- C5 (amended): for every input containing both `youtube.com` and
`/channel/`, `get_channel_id` returns, with no network lookup, exactly the
characters following the first `/channel/` up to the next slash, verbatim. -/
theorem C5_channel_url_direct (s : String)
    (hy : pyInL ytSep s.toList = true) (hc : pyInL chanSep s.toList = true) :
    get_channel_id s =
      Resolution.direct
        ⟨(((splitFirst chanSep s.toList).map Prod.snd).getD []).takeWhile
          (fun c => c ≠ '/')⟩ ∧
      usesNetwork (get_channel_id s) = false := by
  have hcode : get_channel_id s =
      Resolution.direct ⟨(pySplitGet1 chanSep s.toList).takeWhile (fun c => c ≠ '/')⟩ := by
    unfold get_channel_id
    simp only [hy, hc, if_pos]
  obtain ⟨p, hp⟩ := Option.isSome_iff_exists.mp hc
  constructor
  · rw [hcode]
    have := pySplitGet1_takeWhile s.toList p.1 p.2 (by rw [hp])
    rw [this, hp]
    simp
  · rw [hcode]
    rfl

/-- Witness for C5 (amended) at a concrete channel URL. -/
theorem C5_channel_url_direct_witness :
    get_channel_id "https://youtube.com/channel/UC123/videos" =
      Resolution.direct "UC123" ∧
      usesNetwork (get_channel_id "https://youtube.com/channel/UC123/videos") = false := by
  have h := C5_channel_url_direct "https://youtube.com/channel/UC123/videos"
    (by decide) (by decide)
  refine ⟨?_, h.2⟩
  rw [h.1]
  decide

/-! ### Lemmas about the paging loop -/

/-- Every collected row stems from a page entry at or after the cutoff. -/
theorem collectItems_mem (api : YtApi) (cutoff : String)
    (items : List PlaylistItem) (v : Video) (h : v ∈ collectItems api cutoff items) :
    ∃ item, item ∈ items ∧ pyStrLt item.published_at cutoff = false ∧
      v.video_id = item.videoId := by
  unfold collectItems at h
  rw [List.mem_filterMap] at h
  obtain ⟨item, hmem, hf⟩ := h
  by_cases hd : pyStrLt item.published_at cutoff
  · rw [if_pos hd] at hf
    cases hf
  · rw [if_neg hd] at hf
    refine ⟨item, hmem, by simpa using hd, ?_⟩
    cases hdet : get_video_details api item.videoId with
    | none => rw [hdet] at hf; cases hf
    | some d =>
      rw [hdet] at hf
      cases hf
      rfl

/-- All page requests carry `maxResults = 50`. -/
theorem pagesLoop_reqs_all50 (api : YtApi) (cutoff : String) :
    ∀ (fuel k : Nat) (tok : Option String),
      ((pagesLoop api cutoff fuel k tok).2).all (fun r => r.2 = 50) = true := by
  intro fuel
  induction fuel with
  | zero => intro k tok; rfl
  | succ fuel ih =>
    intro k tok
    cases hpk : api.pages k with
    | error e => simp [pagesLoop, hpk]
    | ok p =>
      cases htok : p.nextPageToken with
      | none => simp [pagesLoop, hpk, htok]
      | some t => simp [pagesLoop, hpk, htok, ih]

/-- The requests issued do not depend on the cutoff date. -/
theorem pagesLoop_reqs_cutoff_indep (api : YtApi) (c c2 : String) :
    ∀ (fuel k : Nat) (tok : Option String),
      (pagesLoop api c fuel k tok).2 = (pagesLoop api c2 fuel k tok).2 := by
  intro fuel
  induction fuel with
  | zero => intro k tok; rfl
  | succ fuel ih =>
    intro k tok
    cases hpk : api.pages k with
    | error e => simp [pagesLoop, hpk]
    | ok p =>
      cases htok : p.nextPageToken with
      | none => simp [pagesLoop, hpk, htok]
      | some t => simp [pagesLoop, hpk, htok, ih]

/-- Every collected row stems from some successfully fetched page. -/
theorem pagesLoop_mem (api : YtApi) (cutoff : String) :
    ∀ (fuel k : Nat) (tok : Option String) (v : Video),
      v ∈ (pagesLoop api cutoff fuel k tok).1 →
        ∃ (k2 : Nat) (p : PageResp) (item : PlaylistItem),
          api.pages k2 = .ok p ∧ item ∈ p.items ∧
            pyStrLt item.published_at cutoff = false ∧
            v.video_id = item.videoId := by
  intro fuel
  induction fuel with
  | zero => intro k tok v h; cases h
  | succ fuel ih =>
    intro k tok v h
    cases hpk : api.pages k with
    | error e => rw [show pagesLoop api cutoff (fuel + 1) k tok = ([], [(tok, 50)]) from by
        simp [pagesLoop, hpk]] at h; cases h
    | ok p =>
      cases htok : p.nextPageToken with
      | none =>
        rw [show pagesLoop api cutoff (fuel + 1) k tok =
            (collectItems api cutoff p.items, [(tok, 50)]) from by
          simp [pagesLoop, hpk, htok]] at h
        obtain ⟨item, hmem, hdate, hid⟩ := collectItems_mem api cutoff p.items v h
        exact ⟨k, p, item, hpk, hmem, hdate, hid⟩
      | some t =>
        rw [show pagesLoop api cutoff (fuel + 1) k tok =
            (collectItems api cutoff p.items ++
              (pagesLoop api cutoff fuel (k + 1) (some t)).1,
              (tok, 50) :: (pagesLoop api cutoff fuel (k + 1) (some t)).2) from by
          simp [pagesLoop, hpk, htok]] at h
        rcases List.mem_append.mp h with h1 | h1
        · obtain ⟨item, hmem, hdate, hid⟩ := collectItems_mem api cutoff p.items v h1
          exact ⟨k, p, item, hpk, hmem, hdate, hid⟩
        · exact ih (k + 1) (some t) v h1

/-! ### Claim C3: failures during listing -/

/-- C3 (counterexample): a trace in which the second page fetch raises after
the first page already contributed a video; `get_channel_videos` returns the
partial (nonempty) list, not the empty sequence the claim states. -/
theorem C3_counterexample :
    api3.pages 1 = Except.error "boom" ∧
      get_channel_videos api3 "2023-01-01" 5 ≠ [] := by
  exact ⟨rfl, by decide⟩

/-- C3 (amended): a channel-lookup failure or a first-page fetch failure
yields an empty list; a page fetch failure after an earlier successful page
returns exactly the rows collected from the earlier pages (possibly
nonempty); a per-video detail fetch failure is swallowed inside
`get_video_details` and merely skips that one entry. -/
theorem C3_failure_behavior :
    (∀ (api : YtApi) (cutoff : String) (fuel : Nat) (e : String),
        api.channelLookup = .error e → get_channel_videos api cutoff fuel = []) ∧
      (∀ (api : YtApi) (cutoff : String) (fuel : Nat) (pid e : String),
          api.channelLookup = .ok (some pid) → api.pages 0 = .error e →
            get_channel_videos api cutoff fuel = []) ∧
      (∀ (api : YtApi) (cutoff : String) (fuel : Nat) (pid : String)
          (p : PageResp) (t e : String),
          api.channelLookup = .ok (some pid) → api.pages 0 = .ok p →
            p.nextPageToken = some t → api.pages 1 = .error e →
            get_channel_videos api cutoff (fuel + 2) =
              collectItems api cutoff p.items) ∧
      ∀ (api : YtApi) (cutoff : String) (item : PlaylistItem)
          (rest : List PlaylistItem),
          get_video_details api item.videoId = none →
            collectItems api cutoff (item :: rest) = collectItems api cutoff rest := by
  refine ⟨?_, ?_, ?_, ?_⟩
  · intro api cutoff fuel e h
    simp [get_channel_videos, h]
  · intro api cutoff fuel pid e h1 h2
    cases fuel with
    | zero => simp [get_channel_videos, h1, pagesLoop]
    | succ fuel => simp [get_channel_videos, h1, pagesLoop, h2]
  · intro api cutoff fuel pid p t e h1 h2 h3 h4
    simp only [get_channel_videos, h1]
    show (pagesLoop api cutoff (fuel + 1 + 1) 0 none).1 = _
    simp [pagesLoop, h2, h3, h4]
  · intro api cutoff item rest h
    simp [collectItems, List.filterMap_cons, h, ite_self]

/-- Witness for C3 (amended): the partial-results clause applied to the
concrete trace `api3`. -/
theorem C3_failure_behavior_witness :
    get_channel_videos api3 "2023-01-01" 5 =
      collectItems api3 "2023-01-01" [⟨"2024-05-01", "v1"⟩] :=
  C3_failure_behavior.2.2.1 api3 "2023-01-01" 3 "UPLOADS"
    ⟨[⟨"2024-05-01", "v1"⟩], some "tok2"⟩ "tok2" "boom" rfl rfl rfl rfl

/-! ### Claim C4: paging policy -/

/-- C4 (counterexample): in the trace `api4` the single entry of the first
page is older than the cutoff, yet paging does not stop after that page: a
second request is issued and the in-window entry of the second page is
collected. -/
theorem C4_counterexample :
    api4.pages 0 = Except.ok ⟨[⟨"2020-01-01", "old1"⟩], some "tok2"⟩ ∧
      pyStrLt "2020-01-01" "2023-01-01" = true ∧
      (get_channel_requests api4 "2023-01-01" 5).length = 2 ∧
      get_channel_videos api4 "2023-01-01" 5 =
        [⟨"new1", "2024-05-01", 3, 0, 0, some "Video"⟩] := by
  exact ⟨rfl, by decide, by decide, by decide⟩

/-- C4 (amended): every playlist request uses the fixed page size 50; the
set of requests issued is independent of the cutoff date (entries older than
the cutoff are skipped per-entry, but paging continues through all remaining
pages); every collected row stems from a fetched page entry at or after the
cutoff; and paging stops after a page whose response carries no continuation
token. -/
theorem C4_paging_behavior :
    (∀ (api : YtApi) (cutoff : String) (fuel : Nat),
        (get_channel_requests api cutoff fuel).all (fun r => r.2 = 50) = true) ∧
      (∀ (api : YtApi) (c c2 : String) (fuel : Nat),
          get_channel_requests api c fuel = get_channel_requests api c2 fuel) ∧
      (∀ (api : YtApi) (cutoff : String) (fuel : Nat) (v : Video),
          v ∈ get_channel_videos api cutoff fuel →
            ∃ (k : Nat) (p : PageResp) (item : PlaylistItem),
              api.pages k = .ok p ∧ item ∈ p.items ∧
                pyStrLt item.published_at cutoff = false ∧
                v.video_id = item.videoId) ∧
      ∀ (api : YtApi) (cutoff : String) (fuel : Nat) (pid : String) (p : PageResp),
          api.channelLookup = .ok (some pid) → api.pages 0 = .ok p →
            p.nextPageToken = none →
            get_channel_requests api cutoff (fuel + 1) = [(none, 50)] := by
  refine ⟨?_, ?_, ?_, ?_⟩
  · intro api cutoff fuel
    unfold get_channel_requests
    cases api.channelLookup with
    | error e => rfl
    | ok o =>
      cases o with
      | none => rfl
      | some pid => exact pagesLoop_reqs_all50 api cutoff fuel 0 none
  · intro api c c2 fuel
    unfold get_channel_requests
    cases api.channelLookup with
    | error e => rfl
    | ok o =>
      cases o with
      | none => rfl
      | some pid => rw [pagesLoop_reqs_cutoff_indep api c c2 fuel 0 none]
  · intro api cutoff fuel v h
    unfold get_channel_videos at h
    cases hcl : api.channelLookup with
    | error e => rw [hcl] at h; cases h
    | ok o =>
      cases o with
      | none => rw [hcl] at h; cases h
      | some pid =>
        rw [hcl] at h
        exact pagesLoop_mem api cutoff fuel 0 none v h
  · intro api cutoff fuel pid p h1 h2 h3
    simp [get_channel_requests, h1, pagesLoop, h2, h3]

/-- Witness for C4 (amended): the page-size clause on the trace `api4` and
the stop-on-missing-token clause on the trace `api5`. -/
theorem C4_paging_behavior_witness :
    (get_channel_requests api4 "2023-01-01" 5).all (fun r => r.2 = 50) = true ∧
      get_channel_requests api5 "2023-01-01" 5 = [(none, 50)] := by
  refine ⟨C4_paging_behavior.1 api4 "2023-01-01" 5, ?_⟩
  exact C4_paging_behavior.2.2.2 api5 "2023-01-01" 4 "UPLOADS"
    ⟨[⟨"2024-05-01", "n1"⟩], none⟩ rfl rfl rfl

/-! ### Lemmas about the stable sort and the top-5 maintenance -/

theorem mem_insertAfterEq (v a : Video) (s : List Video) :
    a ∈ insertAfterEq v s ↔ a = v ∨ a ∈ s := by
  induction s with
  | nil => simp [insertAfterEq]
  | cons b t ih =>
    by_cases hc : v.views ≤ b.views
    · simp only [insertAfterEq, if_pos hc, List.mem_cons, ih]
      tauto
    · simp only [insertAfterEq, if_neg hc, List.mem_cons]

theorem insertAfterEq_all_ge (v : Video) (s : List Video)
    (h : ∀ b ∈ s, v.views ≤ b.views) : insertAfterEq v s = s ++ [v] := by
  induction s with
  | nil => rfl
  | cons b t ih =>
    have hb := h b (List.mem_cons_self b t)
    simp only [insertAfterEq, if_pos hb]
    rw [ih fun x hx => h x (List.mem_cons_of_mem b hx)]
    rfl

theorem sortedDesc_iff (l : List Video) :
    sortedDesc l ↔ l.Pairwise (fun a b => b.views ≤ a.views) := Iff.rfl

theorem sortedDesc_insertAfterEq (v : Video) (s : List Video)
    (h : sortedDesc s) : sortedDesc (insertAfterEq v s) := by
  induction s with
  | nil => simp [insertAfterEq, sortedDesc_iff]
  | cons b t ih =>
    rw [sortedDesc_iff, List.pairwise_cons] at h
    by_cases hc : v.views ≤ b.views
    · rw [show insertAfterEq v (b :: t) = b :: insertAfterEq v t from by
        simp [insertAfterEq, hc]]
      rw [sortedDesc_iff, List.pairwise_cons]
      refine ⟨?_, ih ((sortedDesc_iff t).mpr h.2)⟩
      intro x hx
      rcases (mem_insertAfterEq v x t).mp hx with rfl | hx
      · exact hc
      · exact h.1 x hx
    · rw [show insertAfterEq v (b :: t) = v :: b :: t from by simp [insertAfterEq, hc]]
      rw [sortedDesc_iff, List.pairwise_cons]
      refine ⟨?_, by rw [List.pairwise_cons]; exact h⟩
      intro x hx
      rcases List.mem_cons.mp hx with rfl | hx
      · omega
      · have := h.1 x hx
        omega

theorem sortedDesc_pySortDesc (l : List Video) : sortedDesc (pySortDesc l) := by
  suffices h : ∀ (l acc : List Video), sortedDesc acc →
      sortedDesc (List.foldl (fun a v => insertAfterEq v a) acc l) from
    h l [] (List.Pairwise.nil)
  intro l
  induction l with
  | nil => intro acc h; exact h
  | cons x xs ih =>
    intro acc h
    exact ih (insertAfterEq x acc) (sortedDesc_insertAfterEq x acc h)

theorem pySortDesc_sorted_fix (s : List Video) (h : sortedDesc s) :
    pySortDesc s = s := by
  suffices hgen : ∀ (s acc : List Video), sortedDesc (acc ++ s) →
      List.foldl (fun a v => insertAfterEq v a) acc s = acc ++ s from by
    simpa using hgen s [] (by simpa using h)
  intro s
  induction s with
  | nil => intro acc _; simp
  | cons x xs ih =>
    intro acc h
    have hall : ∀ b ∈ acc, x.views ≤ b.views := by
      rw [sortedDesc_iff, List.pairwise_append] at h
      intro b hb
      exact h.2.2 b hb x (List.mem_cons_self x xs)
    have hstep : insertAfterEq x acc = acc ++ [x] := insertAfterEq_all_ge x acc hall
    have hre : (acc ++ [x]) ++ xs = acc ++ x :: xs := by
      rw [List.append_assoc]; rfl
    calc List.foldl (fun a v => insertAfterEq v a) acc (x :: xs)
        = List.foldl (fun a v => insertAfterEq v a) (acc ++ [x]) xs := by
          simp [List.foldl_cons, hstep]
      _ = (acc ++ [x]) ++ xs := ih (acc ++ [x]) (by rw [hre]; exact h)
      _ = acc ++ x :: xs := hre

theorem pySortDesc_append (l : List Video) (v : Video) :
    pySortDesc (l ++ [v]) = insertAfterEq v (pySortDesc l) := by
  simp [pySortDesc, List.foldl_append]

theorem mem_pySortDesc (a : Video) (l : List Video) :
    a ∈ pySortDesc l ↔ a ∈ l := by
  suffices h : ∀ (l acc : List Video),
      (a ∈ List.foldl (fun a2 v => insertAfterEq v a2) acc l ↔ a ∈ acc ∨ a ∈ l) from by
    simpa using h l []
  intro l
  induction l with
  | nil => intro acc; simp
  | cons x xs ih =>
    intro acc
    rw [List.foldl_cons, ih (insertAfterEq x acc)]
    rw [mem_insertAfterEq]
    simp
    tauto

theorem take_insertAfterEq_take (n : Nat) (v : Video) (s : List Video) :
    (insertAfterEq v (s.take n)).take n = (insertAfterEq v s).take n := by
  induction s generalizing n with
  | nil => simp [List.take_nil]
  | cons b t ih =>
    cases n with
    | zero => simp
    | succ m =>
      rw [show (b :: t).take (m + 1) = b :: t.take m from rfl]
      by_cases hc : v.views ≤ b.views
      · rw [show insertAfterEq v (b :: t.take m) = b :: insertAfterEq v (t.take m) from by
          simp [insertAfterEq, hc]]
        rw [show insertAfterEq v (b :: t) = b :: insertAfterEq v t from by
          simp [insertAfterEq, hc]]
        simp only [List.take_succ_cons]
        rw [ih m]
      · rw [show insertAfterEq v (b :: t.take m) = v :: b :: t.take m from by
          simp [insertAfterEq, hc]]
        rw [show insertAfterEq v (b :: t) = v :: b :: t from by
          simp [insertAfterEq, hc]]
        simp only [List.take_succ_cons]
        cases m with
        | zero => simp
        | succ j =>
          simp only [List.take_succ_cons]
          rw [List.take_take, Nat.min_eq_left (Nat.le_succ j)]

theorem sublist_insertAfterEq (v a b : Video) (s : List Video)
    (hs : sortedDesc s) (hv : a.views = b.views)
    (h : [a, b].Sublist (insertAfterEq v s)) : [a, b].Sublist (s ++ [v]) := by
  induction s with
  | nil =>
    exfalso
    have := h.length_le
    simp [insertAfterEq] at this
  | cons c t ih =>
    rw [sortedDesc_iff, List.pairwise_cons] at hs
    by_cases hc : v.views ≤ c.views
    · rw [show insertAfterEq v (c :: t) = c :: insertAfterEq v t from by
        simp [insertAfterEq, hc]] at h
      rw [List.cons_append]
      cases h with
      | cons _ h2 =>
        exact (ih ((sortedDesc_iff t).mpr hs.2) h2).cons _
      | cons₂ _ h2 =>
        refine List.Sublist.cons₂ _ ?_
        have hb := List.singleton_sublist.mp h2
        rcases (mem_insertAfterEq v b t).mp hb with rfl | hbt
        · exact List.singleton_sublist.mpr (by simp)
        · exact List.singleton_sublist.mpr (List.mem_append_left [v] hbt)
    · rw [show insertAfterEq v (c :: t) = v :: c :: t from by
        simp [insertAfterEq, hc]] at h
      cases h with
      | cons _ h2 =>
        exact h2.trans (List.sublist_append_left (c :: t) [v])
      | cons₂ _ h2 =>
        exfalso
        have hb := List.singleton_sublist.mp h2
        rcases List.mem_cons.mp hb with rfl | hbt
        · omega
        · have := hs.1 b hbt
          omega

theorem sublist_append_singleton_cases (a b x : Video) (s : List Video)
    (h : [a, b].Sublist (s ++ [x])) : [a, b].Sublist s ∨ (b = x ∧ a ∈ s) := by
  rw [List.sublist_append_iff] at h
  obtain ⟨l₁, l₂, heq, h1, h2⟩ := h
  match l₁, heq with
  | [], heq =>
    exfalso
    subst heq
    have := h2.length_le
    simp at this
  | [u], heq =>
    simp only [List.cons_append, List.nil_append, List.cons.injEq] at heq
    obtain ⟨rfl, rfl⟩ := heq
    right
    have hb := List.singleton_sublist.mp h2
    simp at hb
    exact ⟨hb, List.singleton_sublist.mp h1⟩
  | u :: u2 :: l₁, heq =>
    simp only [List.cons_append, List.cons.injEq] at heq
    obtain ⟨rfl, rfl, heq⟩ := heq
    have hnil : l₁ = [] ∧ l₂ = [] := by
      constructor <;> cases hl : l₁ <;> cases hl2 : l₂ <;> simp [hl, hl2] at heq ⊢
    obtain ⟨rfl, rfl⟩ := hnil
    left
    simpa using h1

theorem sublist_pySortDesc (a b : Video) (hv : a.views = b.views) :
    ∀ l : List Video, [a, b].Sublist (pySortDesc l) → [a, b].Sublist l := by
  intro l
  induction l using List.reverseRecOn with
  | nil => intro h; simp [pySortDesc] at h
  | append_singleton l x ih =>
    intro h
    rw [pySortDesc_append] at h
    have h2 := sublist_insertAfterEq x a b (pySortDesc l) (sortedDesc_pySortDesc l) hv h
    rcases sublist_append_singleton_cases a b x (pySortDesc l) h2 with h3 | ⟨heq, ha⟩
    · exact (ih h3).trans (List.sublist_append_left l [x])
    · have ha2 := (mem_pySortDesc a l).mp ha
      rw [heq]
      exact List.Sublist.append (List.singleton_sublist.mpr ha2) (List.Sublist.refl [x])

/-- Re-sorting and truncating after each insertion agrees with sorting the
whole bucket and truncating. -/
theorem take5_sort_step (b : List Video) (v : Video) :
    (pySortDesc ((pySortDesc b).take 5 ++ [v])).take 5 =
      (pySortDesc (b ++ [v])).take 5 := by
  rw [pySortDesc_append, pySortDesc_append]
  rw [pySortDesc_sorted_fix ((pySortDesc b).take 5)
    (List.Pairwise.sublist (List.take_sublist 5 _) (sortedDesc_pySortDesc b))]
  exact take_insertAfterEq_take 5 v (pySortDesc b)

/-! ### Lemmas about the grouping loop -/

theorem foldVideos_append (c0 : CTStats) (l : List Video) (v : Video) :
    foldVideos c0 (l ++ [v]) =
      match foldVideos c0 l with
      | .error e => .error e
      | .ok c => updateStats c v := by
  induction l generalizing c0 with
  | nil =>
    simp only [List.nil_append, foldVideos]
    cases hupd : updateStats c0 v with
    | error e => simp [foldVideos, hupd]
    | ok c2 => simp [foldVideos, hupd]
  | cons x xs ih =>
    simp only [List.cons_append, foldVideos]
    cases hupd : updateStats c0 x with
    | error e => simp [hupd]
    | ok c2 => simp only [hupd]; exact ih c2

theorem bump_mkBucket (t : String) (l : List Video) (v : Video)
    (ht : typeKey v = t) : bump (mkBucket t l) v = mkBucket t (l ++ [v]) := by
  have hbeq : (typeKey v == t) = true := beq_iff_eq.mpr ht
  have hb : bucketOf t (l ++ [v]) = bucketOf t l ++ [v] := by
    simp [bucketOf, List.filter_append, List.filter_cons, hbeq]
  unfold bump mkBucket
  rw [hb]
  simp [List.sum_append, List.map_append, List.length_append, take5_sort_step]

theorem mkBucket_append_skip (t : String) (l : List Video) (v : Video)
    (ht : ¬typeKey v = t) : mkBucket t (l ++ [v]) = mkBucket t l := by
  have hbeq : (typeKey v == t) = false := beq_eq_false_iff_ne.mpr ht
  have hb : bucketOf t (l ++ [v]) = bucketOf t l := by
    simp [bucketOf, List.filter_append, List.filter_cons, hbeq]
  simp [mkBucket, hb]

/-- After the grouping loop, each bucket is exactly the spec-side rollup of
the videos of its type, in input order. -/
theorem foldVideos_buckets (l : List Video) : ∀ c : CTStats,
    foldVideos initContentTypeStats l = .ok c →
    c.video = mkBucket "Video" l ∧ c.short = mkBucket "Short" l ∧
      c.live = mkBucket "Live" l := by
  induction l using List.reverseRecOn with
  | nil =>
    intro c h
    simp only [foldVideos] at h
    cases h
    exact ⟨rfl, rfl, rfl⟩
  | append_singleton l v ih =>
    intro c h
    rw [foldVideos_append] at h
    cases hl : foldVideos initContentTypeStats l with
    | error e => rw [hl] at h; cases h
    | ok c2 =>
      rw [hl] at h
      obtain ⟨h1, h2, h3⟩ := ih c2 hl
      replace h : updateStats c2 v = Except.ok c := h
      simp only [updateStats] at h
      by_cases ht : typeKey v = "Video"
      · rw [if_pos ht] at h
        cases h
        refine ⟨?_, ?_, ?_⟩
        · show bump c2.video v = _
          rw [h1]; exact bump_mkBucket "Video" l v ht
        · show c2.short = _
          rw [h2]; exact (mkBucket_append_skip "Short" l v (by rw [ht]; decide)).symm
        · show c2.live = _
          rw [h3]; exact (mkBucket_append_skip "Live" l v (by rw [ht]; decide)).symm
      · rw [if_neg ht] at h
        by_cases ht2 : typeKey v = "Short"
        · rw [if_pos ht2] at h
          cases h
          refine ⟨?_, ?_, ?_⟩
          · show c2.video = _
            rw [h1]; exact (mkBucket_append_skip "Video" l v (by rw [ht2]; decide)).symm
          · show bump c2.short v = _
            rw [h2]; exact bump_mkBucket "Short" l v ht2
          · show c2.live = _
            rw [h3]; exact (mkBucket_append_skip "Live" l v (by rw [ht2]; decide)).symm
        · rw [if_neg ht2] at h
          by_cases ht3 : typeKey v = "Live"
          · rw [if_pos ht3] at h
            cases h
            refine ⟨?_, ?_, ?_⟩
            · show c2.video = _
              rw [h1]; exact (mkBucket_append_skip "Video" l v (by rw [ht3]; decide)).symm
            · show c2.short = _
              rw [h2]; exact (mkBucket_append_skip "Short" l v (by rw [ht3]; decide)).symm
            · show bump c2.live v = _
              rw [h3]; exact bump_mkBucket "Live" l v ht3
          · rw [if_neg ht3] at h
            cases h

/-- A successful grouping loop certifies that every input video's type key is
one of the three initialised bucket keys. -/
theorem foldVideos_types : ∀ (l : List Video) (c0 c : CTStats),
    foldVideos c0 l = .ok c →
    ∀ v ∈ l, typeKey v = "Video" ∨ typeKey v = "Short" ∨ typeKey v = "Live" := by
  intro l
  induction l with
  | nil => intro c0 c h v hv; cases hv
  | cons x xs ih =>
    intro c0 c h v hv
    rw [show foldVideos c0 (x :: xs) =
        match updateStats c0 x with
        | .error e => .error e
        | .ok c2 => foldVideos c2 xs from rfl] at h
    cases hupd : updateStats c0 x with
    | error e => rw [hupd] at h; cases h
    | ok c2 =>
      rw [hupd] at h
      rcases List.mem_cons.mp hv with rfl | hv2
      · simp only [updateStats] at hupd
        by_cases hk1 : typeKey v = "Video"
        · exact Or.inl hk1
        · by_cases hk2 : typeKey v = "Short"
          · exact Or.inr (Or.inl hk2)
          · by_cases hk3 : typeKey v = "Live"
            · exact Or.inr (Or.inr hk3)
            · rw [if_neg hk1, if_neg hk2, if_neg hk3] at hupd; cases hupd
      · exact ih c2 c h v hv2

theorem finalize_fields (b : TypeStats) :
    (finalize b).count = b.count ∧ (finalize b).total_views = b.total_views ∧
      (finalize b).total_likes = b.total_likes ∧
      (finalize b).total_comments = b.total_comments ∧
      (finalize b).top_videos = b.top_videos := by
  unfold finalize
  by_cases h : 0 < b.count <;> simp [h]

theorem finalize_rate_eq (b : TypeStats) (hc : 0 < b.count) :
    (finalize b).engagement_rate =
      if 0 < b.total_views then
        round2 (((b.total_likes + b.total_comments : Int) : ℚ) /
          (b.total_views : ℚ) * 100)
      else 0 := by
  unfold finalize
  rw [if_pos hc]

theorem mkBucket_count_zero (t : String) (l : List Video)
    (h : (mkBucket t l).count = 0) : mkBucket t l = get_empty_type_stats := by
  have hb : bucketOf t l = [] := List.length_eq_zero.mp h
  simp [mkBucket, hb, get_empty_type_stats, pySortDesc]

/-- The engagement-rate contract of one finalized bucket. -/
theorem finalize_rate (b : TypeStats)
    (hz : b.count = 0 → b = get_empty_type_stats) :
    (0 < (finalize b).total_views →
      (finalize b).engagement_rate =
        round2 ((((finalize b).total_likes + (finalize b).total_comments : Int) : ℚ) /
          ((finalize b).total_views : ℚ) * 100)) ∧
      ((finalize b).total_views = 0 → (finalize b).engagement_rate = 0) := by
  by_cases hc : 0 < b.count
  · obtain ⟨_, hv, hl, hcm, _⟩ := finalize_fields b
    rw [hv, hl, hcm]
    constructor
    · intro htv
      rw [finalize_rate_eq b hc, if_pos htv]
    · intro h0
      rw [finalize_rate_eq b hc, h0]
      simp
  · have hb := hz (Nat.eq_zero_of_not_pos hc)
    subst hb
    constructor
    · intro htv
      exact absurd htv (by decide)
    · intro _
      decide

/-- Length, sortedness and tie-stability of a truncated sorted bucket. -/
theorem top_props (t : String) (l : List Video) :
    ((pySortDesc (bucketOf t l)).take 5).length ≤ 5 ∧
      ((pySortDesc (bucketOf t l)).take 5).Pairwise (fun a b => b.views ≤ a.views) ∧
      ∀ a b : Video, a.views = b.views →
        [a, b].Sublist ((pySortDesc (bucketOf t l)).take 5) → [a, b].Sublist l := by
  refine ⟨?_, ?_, ?_⟩
  · rw [List.length_take]; exact min_le_left _ _
  · exact List.Pairwise.sublist (List.take_sublist 5 _) (sortedDesc_pySortDesc _)
  · intro a b hv hs
    have hs2 := hs.trans (List.take_sublist 5 _)
    have hs3 := sublist_pySortDesc a b hv (bucketOf t l) hs2
    exact hs3.trans (List.filter_sublist l)

/-- Counting partition across the three buckets. -/
theorem filter3_length (l : List Video) (t1 t2 t3 : String)
    (h12 : t1 ≠ t2) (h13 : t1 ≠ t3) (h23 : t2 ≠ t3)
    (hv : ∀ v ∈ l, typeKey v = t1 ∨ typeKey v = t2 ∨ typeKey v = t3) :
    l.length = (bucketOf t1 l).length + (bucketOf t2 l).length +
      (bucketOf t3 l).length := by
  induction l with
  | nil => rfl
  | cons x xs ih =>
    have hx := hv x (List.mem_cons_self x xs)
    have ihx := ih fun v hv2 => hv v (List.mem_cons_of_mem x hv2)
    simp only [bucketOf] at ihx ⊢
    rcases hx with h | h | h
    · have e1 : (typeKey x == t1) = true := beq_iff_eq.mpr h
      have e2 : (typeKey x == t2) = false :=
        beq_eq_false_iff_ne.mpr fun he => h12 (h.symm.trans he)
      have e3 : (typeKey x == t3) = false :=
        beq_eq_false_iff_ne.mpr fun he => h13 (h.symm.trans he)
      simp [List.filter_cons, e1, e2, e3]
      omega
    · have e1 : (typeKey x == t1) = false :=
        beq_eq_false_iff_ne.mpr fun he => h12 ((h.symm.trans he).symm)
      have e2 : (typeKey x == t2) = true := beq_iff_eq.mpr h
      have e3 : (typeKey x == t3) = false :=
        beq_eq_false_iff_ne.mpr fun he => h23 (h.symm.trans he)
      simp [List.filter_cons, e1, e2, e3]
      omega
    · have e1 : (typeKey x == t1) = false :=
        beq_eq_false_iff_ne.mpr fun he => h13 ((h.symm.trans he).symm)
      have e2 : (typeKey x == t2) = false :=
        beq_eq_false_iff_ne.mpr fun he => h23 ((h.symm.trans he).symm)
      have e3 : (typeKey x == t3) = true := beq_iff_eq.mpr h
      simp [List.filter_cons, e1, e2, e3]
      omega

/-- Summation partition across the three buckets. -/
theorem filter3_sum (f : Video → Int) (l : List Video) (t1 t2 t3 : String)
    (h12 : t1 ≠ t2) (h13 : t1 ≠ t3) (h23 : t2 ≠ t3)
    (hv : ∀ v ∈ l, typeKey v = t1 ∨ typeKey v = t2 ∨ typeKey v = t3) :
    (l.map f).sum = ((bucketOf t1 l).map f).sum + ((bucketOf t2 l).map f).sum +
      ((bucketOf t3 l).map f).sum := by
  induction l with
  | nil => rfl
  | cons x xs ih =>
    have hx := hv x (List.mem_cons_self x xs)
    have ihx := ih fun v hv2 => hv v (List.mem_cons_of_mem x hv2)
    simp only [bucketOf] at ihx ⊢
    rcases hx with h | h | h
    · have e1 : (typeKey x == t1) = true := beq_iff_eq.mpr h
      have e2 : (typeKey x == t2) = false :=
        beq_eq_false_iff_ne.mpr fun he => h12 (h.symm.trans he)
      have e3 : (typeKey x == t3) = false :=
        beq_eq_false_iff_ne.mpr fun he => h13 (h.symm.trans he)
      simp [List.filter_cons, e1, e2, e3]
      omega
    · have e1 : (typeKey x == t1) = false :=
        beq_eq_false_iff_ne.mpr fun he => h12 ((h.symm.trans he).symm)
      have e2 : (typeKey x == t2) = true := beq_iff_eq.mpr h
      have e3 : (typeKey x == t3) = false :=
        beq_eq_false_iff_ne.mpr fun he => h23 (h.symm.trans he)
      simp [List.filter_cons, e1, e2, e3]
      omega
    · have e1 : (typeKey x == t1) = false :=
        beq_eq_false_iff_ne.mpr fun he => h13 ((h.symm.trans he).symm)
      have e2 : (typeKey x == t2) = false :=
        beq_eq_false_iff_ne.mpr fun he => h23 ((h.symm.trans he).symm)
      have e3 : (typeKey x == t3) = true := beq_iff_eq.mpr h
      simp [List.filter_cons, e1, e2, e3]
      omega

/-! ### Claims C6, C7, C8, C10: aggregation -/

/-- C6: in every per-type bucket produced by the aggregation, the
`engagement_rate` field equals `round((likes + comments) / views * 100, 2)`
over the bucket's totals when the bucket's view total is positive, and is
exactly 0 when the view total is 0 (in particular for an empty bucket). -/
theorem C6_engagement_rate (l : List Video) (r : AggResult)
    (h : analyze_channel_agg l = .ok r) :
    ∀ ts ∈ [r.cta.video, r.cta.short, r.cta.live],
      (0 < ts.total_views →
        ts.engagement_rate =
          round2 (((ts.total_likes + ts.total_comments : Int) : ℚ) /
            (ts.total_views : ℚ) * 100)) ∧
      (ts.total_views = 0 → ts.engagement_rate = 0) := by
  unfold analyze_channel_agg at h
  cases hf : foldVideos initContentTypeStats l with
  | error e => rw [hf] at h; cases h
  | ok c =>
    rw [hf] at h
    cases h
    obtain ⟨h1, h2, h3⟩ := foldVideos_buckets l c hf
    intro ts hts
    have hmem : ts = finalize c.video ∨ ts = finalize c.short ∨
        ts = finalize c.live := by simpa using hts
    rcases hmem with rfl | rfl | rfl
    · exact finalize_rate c.video
        (fun h0 => by rw [h1] at h0 ⊢; exact mkBucket_count_zero _ _ h0)
    · exact finalize_rate c.short
        (fun h0 => by rw [h2] at h0 ⊢; exact mkBucket_count_zero _ _ h0)
    · exact finalize_rate c.live
        (fun h0 => by rw [h3] at h0 ⊢; exact mkBucket_count_zero _ _ h0)

/-- Evaluation of the aggregation on the one-video list `l1w`. -/
theorem agg_l1w : analyze_channel_agg l1w = .ok r1w := by
  have hfold : foldVideos initContentTypeStats l1w =
      .ok ⟨⟨1, 10, 2, 1, 0, 0, 0, 0, [⟨"vid1", "2024-01-01", 10, 2, 1, some "Video"⟩]⟩,
        get_empty_type_stats, get_empty_type_stats⟩ := rfl
  unfold analyze_channel_agg
  rw [hfold]
  refine congrArg Except.ok ?_
  norm_num [l1w, r1w, finalize, get_empty_type_stats, round2, pyRoundHalfEven, Rat.floor]

/-- Witness for C6 on the one-video list `l1w`. -/
theorem C6_engagement_rate_witness :
    r1w.cta.video.engagement_rate =
      round2 (((r1w.cta.video.total_likes + r1w.cta.video.total_comments : Int) : ℚ) /
        (r1w.cta.video.total_views : ℚ) * 100) := by
  have h := C6_engagement_rate l1w r1w agg_l1w r1w.cta.video
    (List.mem_cons_self _ _)
  exact h.1 (by decide)

/-- C7: every per-type `top_videos` list has at most 5 entries, is sorted in
descending order of views, and whenever two of its entries have equal views
they occur in the order in which the videos occur in the input list
(stability of the re-sort-and-truncate maintenance). -/
theorem C7_top_lists (l : List Video) (r : AggResult)
    (h : analyze_channel_agg l = .ok r) :
    ∀ ts ∈ [r.cta.video, r.cta.short, r.cta.live],
      ts.top_videos.length ≤ 5 ∧
        ts.top_videos.Pairwise (fun a b => b.views ≤ a.views) ∧
        ∀ a b : Video, a.views = b.views → [a, b].Sublist ts.top_videos →
          [a, b].Sublist l := by
  unfold analyze_channel_agg at h
  cases hf : foldVideos initContentTypeStats l with
  | error e => rw [hf] at h; cases h
  | ok c =>
    rw [hf] at h
    cases h
    obtain ⟨h1, h2, h3⟩ := foldVideos_buckets l c hf
    intro ts hts
    have hmem : ts = finalize c.video ∨ ts = finalize c.short ∨
        ts = finalize c.live := by simpa using hts
    rcases hmem with rfl | rfl | rfl
    · have htop : (finalize c.video).top_videos =
          (pySortDesc (bucketOf "Video" l)).take 5 := by
        rw [(finalize_fields c.video).2.2.2.2, h1]
        rfl
      rw [htop]
      exact top_props "Video" l
    · have htop : (finalize c.short).top_videos =
          (pySortDesc (bucketOf "Short" l)).take 5 := by
        rw [(finalize_fields c.short).2.2.2.2, h2]
        rfl
      rw [htop]
      exact top_props "Short" l
    · have htop : (finalize c.live).top_videos =
          (pySortDesc (bucketOf "Live" l)).take 5 := by
        rw [(finalize_fields c.live).2.2.2.2, h3]
        rfl
      rw [htop]
      exact top_props "Live" l

/-- Witness for C7 on the one-video list `l1w`. -/
theorem C7_top_lists_witness : r1w.cta.video.top_videos.length ≤ 5 :=
  (C7_top_lists l1w r1w agg_l1w r1w.cta.video (List.mem_cons_self _ _)).1

/-- C8: aggregating the empty video list yields all three content types with
count 0, all sums, averages and engagement rates 0, empty `top_videos`, and
all-zero overall totals. -/
theorem C8_empty_aggregation :
    analyze_channel_agg [] =
      .ok ⟨0, 0, 0, 0,
        ⟨get_empty_type_stats, get_empty_type_stats, get_empty_type_stats⟩, []⟩ ∧
      get_empty_type_stats = ⟨0, 0, 0, 0, 0, 0, 0, 0, []⟩ :=
  ⟨rfl, rfl⟩

/-- C10: the overall totals equal the sums over the three per-type buckets:
the video count is the sum of the per-type counts and each of the
views/likes/comments totals is the sum of the corresponding per-type totals
(whenever the aggregation succeeds, i.e. every type key is one of the three
bucket keys or absent). -/
theorem C10_overall_totals (l : List Video) (r : AggResult)
    (h : analyze_channel_agg l = .ok r) :
    r.total_videos = r.cta.video.count + r.cta.short.count + r.cta.live.count ∧
      r.total_views = r.cta.video.total_views + r.cta.short.total_views +
        r.cta.live.total_views ∧
      r.total_likes = r.cta.video.total_likes + r.cta.short.total_likes +
        r.cta.live.total_likes ∧
      r.total_comments = r.cta.video.total_comments + r.cta.short.total_comments +
        r.cta.live.total_comments := by
  unfold analyze_channel_agg at h
  cases hf : foldVideos initContentTypeStats l with
  | error e => rw [hf] at h; cases h
  | ok c =>
    rw [hf] at h
    cases h
    obtain ⟨h1, h2, h3⟩ := foldVideos_buckets l c hf
    have hv := foldVideos_types l initContentTypeStats c hf
    have d12 : ("Video" : String) ≠ "Short" := by decide
    have d13 : ("Video" : String) ≠ "Live" := by decide
    have d23 : ("Short" : String) ≠ "Live" := by decide
    refine ⟨?_, ?_, ?_, ?_⟩
    · show l.length = (finalize c.video).count + (finalize c.short).count +
        (finalize c.live).count
      rw [(finalize_fields c.video).1, (finalize_fields c.short).1,
        (finalize_fields c.live).1, h1, h2, h3]
      exact filter3_length l "Video" "Short" "Live" d12 d13 d23 hv
    · show (l.map Video.views).sum = (finalize c.video).total_views +
        (finalize c.short).total_views + (finalize c.live).total_views
      rw [(finalize_fields c.video).2.1, (finalize_fields c.short).2.1,
        (finalize_fields c.live).2.1, h1, h2, h3]
      exact filter3_sum Video.views l "Video" "Short" "Live" d12 d13 d23 hv
    · show (l.map Video.likes).sum = (finalize c.video).total_likes +
        (finalize c.short).total_likes + (finalize c.live).total_likes
      rw [(finalize_fields c.video).2.2.1, (finalize_fields c.short).2.2.1,
        (finalize_fields c.live).2.2.1, h1, h2, h3]
      exact filter3_sum Video.likes l "Video" "Short" "Live" d12 d13 d23 hv
    · show (l.map Video.comments).sum = (finalize c.video).total_comments +
        (finalize c.short).total_comments + (finalize c.live).total_comments
      rw [(finalize_fields c.video).2.2.2.1, (finalize_fields c.short).2.2.2.1,
        (finalize_fields c.live).2.2.2.1, h1, h2, h3]
      exact filter3_sum Video.comments l "Video" "Short" "Live" d12 d13 d23 hv

/-- Witness for C10 on the one-video list `l1w`. -/
theorem C10_overall_totals_witness :
    r1w.total_videos = r1w.cta.video.count + r1w.cta.short.count +
      r1w.cta.live.count :=
  (C10_overall_totals l1w r1w agg_l1w).1

/-! ### Claim C9: the two document-lookup endpoints -/

/-- C9: for a request lacking the `channel_id` query parameter, both service
variants answer 400 with an error body without touching the database; for a
request whose database lookup raises, both answer 500 with
`{"error": message}`. -/
theorem C9_endpoint_errors :
    (∀ (dbE dbF : String → Except String (List String)),
        get_data_api none dbE =
          ((400, .err "channel_id parameter is required"), false) ∧
        get_data_db none dbF =
          ((400, .err "channel_id parameter is required"), false)) ∧
      ∀ (cid e : String) (dbE dbF : String → Except String (List String)),
        cid.isEmpty = false → dbE cid = .error e → dbF cid = .error e →
          get_data_api (some cid) dbE = ((500, .err e), true) ∧
            get_data_db (some cid) dbF = ((500, .err e), true) := by
  constructor
  · intro dbE dbF
    exact ⟨rfl, rfl⟩
  · intro cid e dbE dbF hne h1 h2
    have hf : pyFalsy (some cid) = false := hne
    constructor
    · unfold get_data_api
      rw [hf]
      simp only [Bool.false_eq_true, if_false, Option.getD_some, h1]
    · unfold get_data_db
      rw [hf]
      simp only [Bool.false_eq_true, if_false, Option.getD_some, h2]

/-- Witness for C9 at a concrete id and a database that raises. -/
theorem C9_endpoint_errors_witness :
    get_data_api (some "UC1") (fun _ => .error "boom") = ((500, .err "boom"), true) ∧
      get_data_db (some "UC1") (fun _ => .error "boom") = ((500, .err "boom"), true) :=
  C9_endpoint_errors.2 "UC1" "boom" (fun _ => .error "boom")
    (fun _ => .error "boom") rfl rfl rfl

end SocialAnalytics
